import Mathlib

/-!
# Token validation of `auth0-backend` (`main.go`)

A shallow embedding of the two functions of `main.go` that make up the
request-time token check:

* the `ValidationKeyGetter` closure handed to `jwtmiddleware.New`
  (`main.go`, lines 18-39), and
* `getPemCert` (`main.go`, lines 76-105).

Go values are modelled as follows.

* A Go `interface{}` stored in a JSON-decoded map (`token.Header`,
  `jwt.MapClaims`) is a `Value`; a missing map key is `none`.
* A Go function returning `(T, error)` that may also panic yields a
  `Result T`: either `ret v err` (with `err = none` for a `nil` error) or
  `panic msg`.
* The outside world (the HTTP round trip made by `http.Get`, the JSON
  decoding of the response body and the PEM/X.509 parser of `jwt-go`) is a
  `World` argument; the outbound requests a call makes are returned as a
  list of URLs next to its result.
-/

namespace Auth0Backend

/-! ## Data model -/

/-- A Go `interface{}` value as produced by `encoding/json` inside a
`map[string]interface{}`: a JSON string, an array of strings, or anything
else (number, boolean, object, mixed array, `null`). -/
inductive Value where
  | str (s : String)
  | strs (l : List String)
  | other
  deriving DecidableEq, Repr

/-- The type `jwt.MapClaims` (`map[string]interface{}`); `none` is a missing key. -/
abbrev MapClaims := String → Option Value

/-- The fields of `jwt.Token` (jwt-go `token.go`).
`Claims` is the `jwt.MapClaims` that `jwt.Parse` always stores there, so the
type assertion `token.Claims.(jwt.MapClaims)` of lines 21 and 27 succeeds. -/
structure Token where
  Raw : String
  Header : String → Option Value
  Claims : MapClaims
  Signature : String
  Valid : Bool

/-- Modelled from the spec: the declaration of the element type of
`Jwks.Keys` is missing from `main.go`. Per the spec's data model each record
has a key identifier and certificate-chain entries; `getPemCert` reads them
as `.Kid` (compared with `token.Header["kid"]`) and `.X5c[0]` (a string). -/
structure JwksKey where
  Kid : String
  X5c : List String
  deriving DecidableEq, Repr

/-- Modelled from the spec: the declaration of `Jwks` is missing from
`main.go`; the spec describes it as an ordered sequence of key records,
read by `getPemCert` as `jwks.Keys`. -/
structure Jwks where
  Keys : List JwksKey
  deriving DecidableEq, Repr

/-- An `*rsa.PublicKey` (modulus and exponent). -/
structure RSAPublicKey where
  N : Nat
  E : Nat
  deriving DecidableEq, Repr

/-- What `http.Get` hands back when the transport succeeded: the status code
and the outcome of `json.NewDecoder(resp.Body).Decode(&jwks)` on the body
(`Except.error e` when the decoder reports `e`). -/
structure Response where
  StatusCode : Nat
  Body : Except String Jwks

/-- The environment of one validation. `httpGet url` is the outcome of
`http.Get(url)`: `Except.error e` for a transport error, otherwise the
response (whatever its status code: `http.Get` reports no error for a
non-2xx status). `ParseRSAPublicKeyFromPEM` is the jwt-go function of that
name. -/
structure World where
  httpGet : String → Except String Response
  ParseRSAPublicKeyFromPEM : String → Except String RSAPublicKey

/-- Outcome of a Go call returning `(T, error)`: a normal return (the error
is `none` for `nil`) or a panic carrying its message. -/
inductive Result (α : Type) where
  | ret (val : α) (err : Option String)
  | panic (msg : String)

/-- First component returned by the `ValidationKeyGetter` (an
`interface{}`): the token itself on the claim-error paths, or the
`*rsa.PublicKey` returned by the PEM parser (`none` is the nil pointer). -/
inductive KeyValue where
  | token (t : Token)
  | rsa (key : Option RSAPublicKey)

/-- Result of a call together with the URLs it requested, in order. -/
structure Run (α : Type) where
  result : Result α
  fetches : List String

/-! ## jwt-go claim checks (`map_claims.go`, `claims.go`, release v3.2.0)

`main.go` imports `github.com/dgrijalva/jwt-go` and calls
`VerifyAudience(aud, false)` and `VerifyIssuer(iss, false)`; the second
argument is the library's `req` ("required") flag. -/

/-- The comma-ok type assertion `v, _ := m[key].(string)`: the string when
the entry holds one, the zero value `""` otherwise. -/
def asString : Option Value → String
  | some (Value.str s) => s
  | _ => ""

/-- The jwt-go helper `verifyAud(aud, cmp, required)`: an empty value passes
exactly when the claim is not required; otherwise the two strings are
compared (`subtle.ConstantTimeCompare(..) != 0`). -/
def verifyAud (aud cmp : String) (required : Bool) : Bool :=
  if aud = "" then !required else decide (aud = cmp)

/-- The jwt-go helper `verifyIss(iss, cmp, required)`. -/
def verifyIss (iss cmp : String) (required : Bool) : Bool :=
  if iss = "" then !required else decide (iss = cmp)

/-- The method `MapClaims.VerifyAudience(cmp, req)`:
`aud, _ := m["aud"].(string); return verifyAud(aud, cmp, req)`. -/
def MapClaims.VerifyAudience (m : MapClaims) (cmp : String) (req : Bool) : Bool :=
  verifyAud (asString (m "aud")) cmp req

/-- The method `MapClaims.VerifyIssuer(cmp, req)`:
`iss, _ := m["iss"].(string); return verifyIss(iss, cmp, req)`. -/
def MapClaims.VerifyIssuer (m : MapClaims) (cmp : String) (req : Bool) : Bool :=
  verifyIss (asString (m "iss")) cmp req

/-! ## `main.go` -/

/-- The literal `aud` of line 20. -/
def aud : String := "https://thuocdongy.com/"

/-- The literal `iss` of line 26. -/
def iss : String := "https://dev--njhv5y3.au.auth0.com/"

/-- The URL literal of line 79. -/
def jwksURL : String := "https://dev--njhv5y3.au.auth0.com/.well-known/jwks.json"

/-- The string built on line 95 around `X5c[0]`. -/
def pemOf (e : String) : String :=
  "-----BEGIN CERTIFICATE-----\n" ++ e ++ "\n-----END CERTIFICATE-----"

/-- The message of the run-time panic raised by `X5c[0]` on an empty slice. -/
def indexPanic : String := "runtime error: index out of range [0] with length 0"

/-- The loop of lines 93-97, started with the current value of `cert`:
every record whose `Kid` equals `token.Header["kid"]` (an `interface{}`
compared with a string: equal only when the header holds that very string)
overwrites `cert`; there is no `break`. `Except.error` is the panic of
`X5c[0]` on a matching record without chain entries. -/
def certLoop (kid : Option Value) : List JwksKey → String → Except String String
  | [], cert => Except.ok cert
  | k :: ks, cert =>
    if kid = some (Value.str k.Kid) then
      match k.X5c with
      | [] => Except.error indexPanic
      | e :: _ => certLoop kid ks (pemOf e)
    else certLoop kid ks cert

/-- Lines 86-104 of `getPemCert`, once `http.Get` has returned a response. -/
def pemFromResponse (token : Token) (resp : Response) : Result String :=
  match resp.Body with
  | Except.error err => Result.ret "" (some err)
  | Except.ok jwks =>
    match certLoop (token.Header "kid") jwks.Keys "" with
    | Except.error msg => Result.panic msg
    | Except.ok cert =>
      if cert = "" then Result.ret cert (some "Unable to find appropriate key.")
      else Result.ret cert none

/-- The function `getPemCert` (lines 76-105): one `http.Get` of the key-set
URL, then decoding, matching and formatting. -/
def getPemCert (w : World) (token : Token) : Run String :=
  match w.httpGet jwksURL with
  | Except.error err => ⟨Result.ret "" (some err), [jwksURL]⟩
  | Except.ok resp => ⟨pemFromResponse token resp, [jwksURL]⟩

/-- The closure `ValidationKeyGetter` (lines 18-39). -/
def ValidationKeyGetter (w : World) (token : Token) : Run KeyValue :=
  let checkAud := token.Claims.VerifyAudience aud false
  if !checkAud then
    ⟨Result.ret (KeyValue.token token) (some "Invalid audience."), []⟩
  else
    let checkIss := token.Claims.VerifyIssuer iss false
    if !checkIss then
      ⟨Result.ret (KeyValue.token token) (some "Invalid issuer."), []⟩
    else
      let r := getPemCert w token
      match r.result with
      | Result.panic msg => ⟨Result.panic msg, r.fetches⟩
      | Result.ret _ (some err) => ⟨Result.panic err, r.fetches⟩
      | Result.ret cert none =>
        match w.ParseRSAPublicKeyFromPEM cert with
        | Except.ok key => ⟨Result.ret (KeyValue.rsa (some key)) none, r.fetches⟩
        | Except.error _ => ⟨Result.ret (KeyValue.rsa none) none, r.fetches⟩

/-! ## Concrete inputs -/

/-- A token with the given `kid` header and `aud` / `iss` claims. -/
def mkToken (kid audClaim issClaim : Option Value) : Token where
  Raw := "h.c.s"
  Header := fun k => if k = "kid" then kid else if k = "alg" then some (Value.str "RS256") else none
  Claims := fun k => if k = "aud" then audClaim else if k = "iss" then issClaim else none
  Signature := "s"
  Valid := false

/-- A PEM parser that accepts exactly the certificate entry `"MIIB"`. -/
def parseOnlyMIIB (pem : String) : Except String RSAPublicKey :=
  if pem = pemOf "MIIB" then Except.ok ⟨3233, 17⟩
  else Except.error "Invalid Key: Key must be PEM encoded PKCS1 or PKCS8 private key"

/-- A world answering the key-set request with the given outcome. -/
def worldOf (r : Except String Response) : World where
  httpGet := fun _ => r
  ParseRSAPublicKeyFromPEM := parseOnlyMIIB

/-- A world whose key-set response has the given status and decodes to the given records. -/
def worldOfKeys (status : Nat) (keys : List JwksKey) : World :=
  worldOf (Except.ok ⟨status, Except.ok ⟨keys⟩⟩)

/-! ## Lemmas on the claim checks -/

theorem verifyAud_false_iff (a c : String) :
    verifyAud a c false = false ↔ a ≠ "" ∧ a ≠ c := by
  unfold verifyAud
  by_cases h : a = ""
  · simp [h]
  · simp [h]

theorem verifyIss_false_iff (a c : String) :
    verifyIss a c false = false ↔ a ≠ "" ∧ a ≠ c := by
  unfold verifyIss
  by_cases h : a = ""
  · simp [h]
  · simp [h]

theorem asString_nonempty_iff (v : Option Value) (P : String → Prop) :
    (asString v ≠ "" ∧ P (asString v)) ↔ ∃ a, v = some (Value.str a) ∧ a ≠ "" ∧ P a := by
  constructor
  · intro h
    match v, h with
    | some (Value.str s), h => exact ⟨s, rfl, h.1, h.2⟩
    | some (Value.strs _), h => exact absurd rfl h.1
    | some Value.other, h => exact absurd rfl h.1
    | none, h => exact absurd rfl h.1
  · rintro ⟨a, rfl, h1, h2⟩
    exact ⟨h1, h2⟩

theorem verifyAudience_false_iff (m : MapClaims) (c : String) :
    m.VerifyAudience c false = false ↔ ∃ a, m "aud" = some (Value.str a) ∧ a ≠ "" ∧ a ≠ c := by
  unfold MapClaims.VerifyAudience
  rw [verifyAud_false_iff]
  exact asString_nonempty_iff (m "aud") (fun a => a ≠ c)

theorem verifyIssuer_false_iff (m : MapClaims) (c : String) :
    m.VerifyIssuer c false = false ↔ ∃ a, m "iss" = some (Value.str a) ∧ a ≠ "" ∧ a ≠ c := by
  unfold MapClaims.VerifyIssuer
  rw [verifyIss_false_iff]
  exact asString_nonempty_iff (m "iss") (fun a => a ≠ c)

/-! ## Lemmas on the control flow of the key getter -/

theorem getter_of_aud_fail (w : World) (t : Token)
    (h : t.Claims.VerifyAudience aud false = false) :
    ValidationKeyGetter w t
      = ⟨Result.ret (KeyValue.token t) (some "Invalid audience."), []⟩ := by
  simp [ValidationKeyGetter, h]

theorem getter_of_iss_fail (w : World) (t : Token)
    (ha : t.Claims.VerifyAudience aud false = true)
    (hi : t.Claims.VerifyIssuer iss false = false) :
    ValidationKeyGetter w t
      = ⟨Result.ret (KeyValue.token t) (some "Invalid issuer."), []⟩ := by
  simp [ValidationKeyGetter, ha, hi]

theorem getPemCert_fetches (w : World) (t : Token) :
    (getPemCert w t).fetches = [jwksURL] := by
  unfold getPemCert
  cases w.httpGet jwksURL <;> rfl

theorem getter_fetches_of_pass (w : World) (t : Token)
    (ha : t.Claims.VerifyAudience aud false = true)
    (hi : t.Claims.VerifyIssuer iss false = true) :
    (ValidationKeyGetter w t).fetches = [jwksURL] := by
  simp only [ValidationKeyGetter, ha, hi]
  have hf := getPemCert_fetches w t
  cases hr : (getPemCert w t).result with
  | panic msg => simp [hf]
  | ret cert err =>
    cases err with
    | some e => simp [hf]
    | none =>
      cases hp : w.ParseRSAPublicKeyFromPEM cert <;> simp [hp, hf]

theorem getter_result_of_pass (w : World) (t : Token)
    (ha : t.Claims.VerifyAudience aud false = true)
    (hi : t.Claims.VerifyIssuer iss false = true) :
    (ValidationKeyGetter w t).result =
      match (getPemCert w t).result with
      | Result.panic msg => Result.panic msg
      | Result.ret _ (some err) => Result.panic err
      | Result.ret cert none =>
        match w.ParseRSAPublicKeyFromPEM cert with
        | Except.ok key => Result.ret (KeyValue.rsa (some key)) none
        | Except.error _ => Result.ret (KeyValue.rsa none) none := by
  simp only [ValidationKeyGetter, ha, hi]
  cases hr : (getPemCert w t).result with
  | panic msg => simp
  | ret cert err =>
    cases err with
    | some e => simp
    | none =>
      cases hp : w.ParseRSAPublicKeyFromPEM cert <;> simp [hp]

theorem getter_pass_ne_claim_error (w : World) (t : Token) (msg : String)
    (ha : t.Claims.VerifyAudience aud false = true)
    (hi : t.Claims.VerifyIssuer iss false = true) :
    (ValidationKeyGetter w t).result ≠ Result.ret (KeyValue.token t) (some msg) := by
  rw [getter_result_of_pass w t ha hi]
  cases hr : (getPemCert w t).result with
  | panic m => simp
  | ret cert err =>
    cases err with
    | some e => simp
    | none =>
      cases hp : w.ParseRSAPublicKeyFromPEM cert <;> simp [hp]

/-! ## Lemmas on `getPemCert` -/

theorem pemOf_ne_empty (e : String) : pemOf e ≠ "" := by
  intro h
  have hl := congrArg String.length h
  simp only [pemOf, String.length_append] at hl
  have h27 : "-----BEGIN CERTIFICATE-----\n".length = 28 := by decide
  have h0 : "".length = 0 := rfl
  omega

theorem certLoop_no_match (kid : Option Value) (ks : List JwksKey) (cert : String)
    (h : ∀ k ∈ ks, kid ≠ some (Value.str k.Kid)) :
    certLoop kid ks cert = Except.ok cert := by
  induction ks generalizing cert with
  | nil => rfl
  | cons k ks ih =>
    have hk : kid ≠ some (Value.str k.Kid) := h k (List.mem_cons_self k ks)
    simp only [certLoop, hk, if_false]
    exact ih cert (fun k' hk' => h k' (List.mem_cons_of_mem k hk'))

theorem certLoop_last_match (kid : Option Value) (pre post : List JwksKey) (r : JwksKey)
    (e : String) (rest : List String) (cert : String)
    (hpre : ∀ k ∈ pre, kid = some (Value.str k.Kid) → k.X5c ≠ [])
    (hr : kid = some (Value.str r.Kid)) (hx : r.X5c = e :: rest)
    (hpost : ∀ k ∈ post, kid ≠ some (Value.str k.Kid)) :
    certLoop kid (pre ++ r :: post) cert = Except.ok (pemOf e) := by
  induction pre generalizing cert with
  | nil =>
    simp only [List.nil_append, certLoop, hr, if_true, hx]
    exact certLoop_no_match _ post _ (hr ▸ hpost)
  | cons k ks ih =>
    have hks : ∀ k' ∈ ks, kid = some (Value.str k'.Kid) → k'.X5c ≠ [] :=
      fun k' hk' => hpre k' (List.mem_cons_of_mem k hk')
    by_cases hk : kid = some (Value.str k.Kid)
    · have hne := hpre k (List.mem_cons_self k ks) hk
      cases hc : k.X5c with
      | nil => exact absurd hc hne
      | cons e' rest' =>
        simp only [List.cons_append, certLoop, hk, if_true, hc]
        exact hk ▸ ih (pemOf e') hks
    · simp only [List.cons_append, certLoop, hk, if_false]
      exact ih cert hks

/-- With a chain entry on every record the loop never panics: `cert` is left
untouched when no record matches and is otherwise the certificate of some
matching record. -/
theorem certLoop_spec (kid : Option Value) (ks : List JwksKey) (cert : String)
    (hx : ∀ k ∈ ks, k.X5c ≠ []) :
    ((∀ k ∈ ks, kid ≠ some (Value.str k.Kid)) ∧ certLoop kid ks cert = Except.ok cert)
      ∨ ∃ k ∈ ks, kid = some (Value.str k.Kid) ∧
          ∃ e rest, k.X5c = e :: rest ∧ certLoop kid ks cert = Except.ok (pemOf e) := by
  induction ks generalizing cert with
  | nil => exact Or.inl ⟨fun _ h => absurd h (List.not_mem_nil _), rfl⟩
  | cons k ks ih =>
    have hks : ∀ k' ∈ ks, k'.X5c ≠ [] := fun k' hk' => hx k' (List.mem_cons_of_mem k hk')
    by_cases hk : kid = some (Value.str k.Kid)
    · right
      cases hc : k.X5c with
      | nil => exact absurd hc (hx k (List.mem_cons_self k ks))
      | cons e rest =>
        have hstep : certLoop kid (k :: ks) cert = certLoop kid ks (pemOf e) := by
          simp only [certLoop, hk, if_true, hc]
        rcases ih (pemOf e) hks with ⟨_, hrun⟩ | ⟨k', hk', hm, e', rest', hx', hrun⟩
        · exact ⟨k, List.mem_cons_self k ks, hk, e, rest, hc, hstep.trans hrun⟩
        · exact ⟨k', List.mem_cons_of_mem k hk', hm, e', rest', hx', hstep.trans hrun⟩
    · have hstep : certLoop kid (k :: ks) cert = certLoop kid ks cert := by
        simp only [certLoop, hk, if_false]
      rcases ih cert hks with ⟨hno, hrun⟩ | ⟨k', hk', hm, e', rest', hx', hrun⟩
      · left
        refine ⟨?_, hstep.trans hrun⟩
        intro k' hk'
        rcases List.mem_cons.mp hk' with rfl | h'
        · exact hk
        · exact hno k' h'
      · exact Or.inr ⟨k', List.mem_cons_of_mem k hk', hm, e', rest', hx', hstep.trans hrun⟩

theorem getPemCert_of_response (w : World) (t : Token) (resp : Response)
    (hget : w.httpGet jwksURL = Except.ok resp) :
    getPemCert w t = ⟨pemFromResponse t resp, [jwksURL]⟩ := by
  simp [getPemCert, hget]

theorem getPemCert_of_cert (w : World) (t : Token) (resp : Response) (jwks : Jwks) (e : String)
    (hget : w.httpGet jwksURL = Except.ok resp) (hbody : resp.Body = Except.ok jwks)
    (hloop : certLoop (t.Header "kid") jwks.Keys "" = Except.ok (pemOf e)) :
    getPemCert w t = ⟨Result.ret (pemOf e) none, [jwksURL]⟩ := by
  rw [getPemCert_of_response w t resp hget]
  simp [pemFromResponse, hbody, hloop, pemOf_ne_empty]

/-! ## C1: audience check -/

/-- C1 (as amended): the `ValidationKeyGetter` returns the token with the
error "Invalid audience." (and requests nothing) exactly for the tokens whose
`aud` claim is a non-empty string different from the expected audience,
whatever the signature, the issuer and the key identifier are; an empty,
absent or non-string audience is not rejected, the check being made with
`required = false`. -/
theorem C1_invalid_audience_iff (w : World) (t : Token) :
    ValidationKeyGetter w t
        = ⟨Result.ret (KeyValue.token t) (some "Invalid audience."), []⟩
      ↔ ∃ a, t.Claims "aud" = some (Value.str a) ∧ a ≠ "" ∧ a ≠ aud := by
  rw [← verifyAudience_false_iff]
  constructor
  · intro h
    cases ha : t.Claims.VerifyAudience aud false with
    | false => rfl
    | true =>
      exfalso
      have hres := congrArg Run.result h
      cases hi : t.Claims.VerifyIssuer iss false with
      | false =>
        rw [getter_of_iss_fail w t ha hi] at hres
        simp at hres
      | true => exact getter_pass_ne_claim_error w t _ ha hi hres
  · exact getter_of_aud_fail w t

/-- C1, instance: a token for another audience is rejected with
"Invalid audience." although its issuer and key identifier are valid. -/
theorem C1_invalid_audience_witness :
    ValidationKeyGetter (worldOfKeys 200 [⟨"k1", ["MIIB"]⟩])
        (mkToken (some (Value.str "k1")) (some (Value.str "https://other.example/"))
          (some (Value.str iss)))
      = ⟨Result.ret (KeyValue.token (mkToken (some (Value.str "k1"))
          (some (Value.str "https://other.example/")) (some (Value.str iss))))
          (some "Invalid audience."), []⟩ :=
  (C1_invalid_audience_iff _ _).mpr ⟨"https://other.example/", rfl, by decide, by decide⟩

/-- C1 fails as stated: a token whose audience claim is the empty string
(which is not the expected audience) is not rejected with
"Invalid audience."; the getter goes on and returns the resolved key with a
nil error. -/
theorem C1_counterexample_empty_audience :
    (mkToken (some (Value.str "k1")) (some (Value.str "")) (some (Value.str iss))).Claims "aud"
        = some (Value.str "")
      ∧ "" ≠ aud
      ∧ (ValidationKeyGetter (worldOfKeys 200 [⟨"k1", ["MIIB"]⟩])
          (mkToken (some (Value.str "k1")) (some (Value.str "")) (some (Value.str iss)))).result
        = Result.ret (KeyValue.rsa (some ⟨3233, 17⟩)) none
      ∧ (ValidationKeyGetter (worldOfKeys 200 [⟨"k1", ["MIIB"]⟩])
          (mkToken (some (Value.str "k1")) (some (Value.str "")) (some (Value.str iss)))).result
        ≠ Result.ret (KeyValue.token
            (mkToken (some (Value.str "k1")) (some (Value.str "")) (some (Value.str iss))))
          (some "Invalid audience.") := by
  have h : (ValidationKeyGetter (worldOfKeys 200 [⟨"k1", ["MIIB"]⟩])
      (mkToken (some (Value.str "k1")) (some (Value.str "")) (some (Value.str iss)))).result
      = Result.ret (KeyValue.rsa (some ⟨3233, 17⟩)) none := rfl
  refine ⟨rfl, by decide, h, ?_⟩
  rw [h]
  simp

/-! ## C2: issuer check -/

/-- C2 (as amended): for a token that passes the audience check, the
`ValidationKeyGetter` returns the token with the error "Invalid issuer."
(and requests nothing) exactly when the `iss` claim is a non-empty string
different from the expected issuer; an empty, absent or non-string issuer is
not rejected, the check being made with `required = false`. -/
theorem C2_invalid_issuer_iff (w : World) (t : Token)
    (ha : t.Claims.VerifyAudience aud false = true) :
    ValidationKeyGetter w t
        = ⟨Result.ret (KeyValue.token t) (some "Invalid issuer."), []⟩
      ↔ ∃ i, t.Claims "iss" = some (Value.str i) ∧ i ≠ "" ∧ i ≠ iss := by
  rw [← verifyIssuer_false_iff]
  constructor
  · intro h
    cases hi : t.Claims.VerifyIssuer iss false with
    | false => rfl
    | true => exact absurd (congrArg Run.result h) (getter_pass_ne_claim_error w t _ ha hi)
  · exact getter_of_iss_fail w t ha

/-- C2, instance: a token for the expected audience issued by somebody else
is rejected with "Invalid issuer.". -/
theorem C2_invalid_issuer_witness :
    ValidationKeyGetter (worldOfKeys 200 [⟨"k1", ["MIIB"]⟩])
        (mkToken (some (Value.str "k1")) (some (Value.str aud))
          (some (Value.str "https://evil.example/")))
      = ⟨Result.ret (KeyValue.token (mkToken (some (Value.str "k1")) (some (Value.str aud))
          (some (Value.str "https://evil.example/")))) (some "Invalid issuer."), []⟩ :=
  (C2_invalid_issuer_iff (worldOfKeys 200 [⟨"k1", ["MIIB"]⟩])
    (mkToken (some (Value.str "k1")) (some (Value.str aud)) (some (Value.str "https://evil.example/")))
    rfl).mpr ⟨"https://evil.example/", rfl, by decide, by decide⟩

/-- C2 fails as stated: a token for the expected audience that has no `iss`
claim at all, or the empty string as issuer, passes the issuer check; the
getter returns the resolved key with a nil error instead of
"Invalid issuer.". -/
theorem C2_counterexample_missing_issuer :
    (mkToken (some (Value.str "k1")) (some (Value.str aud)) none).Claims.VerifyAudience aud false
        = true
      ∧ (mkToken (some (Value.str "k1")) (some (Value.str aud)) none).Claims "iss" = none
      ∧ (ValidationKeyGetter (worldOfKeys 200 [⟨"k1", ["MIIB"]⟩])
          (mkToken (some (Value.str "k1")) (some (Value.str aud)) none)).result
        = Result.ret (KeyValue.rsa (some ⟨3233, 17⟩)) none
      ∧ (mkToken (some (Value.str "k1")) (some (Value.str aud)) (some (Value.str ""))).Claims "iss"
        = some (Value.str "")
      ∧ "" ≠ iss
      ∧ (ValidationKeyGetter (worldOfKeys 200 [⟨"k1", ["MIIB"]⟩])
          (mkToken (some (Value.str "k1")) (some (Value.str aud)) (some (Value.str "")))).result
        = Result.ret (KeyValue.rsa (some ⟨3233, 17⟩)) none :=
  ⟨rfl, rfl, rfl, rfl, by decide, rfl⟩

/-! ## C3: failed key resolution -/

/-- C3, what the code does: for a token that passes the audience and issuer
checks, whenever `getPemCert` returns an error the `ValidationKeyGetter`
panics with that error's message (line 34), after the one key-set request;
it does not return an error value. -/
theorem C3_key_resolution_failure_panics (w : World) (t : Token) (cert err : String)
    (ha : t.Claims.VerifyAudience aud false = true)
    (hi : t.Claims.VerifyIssuer iss false = true)
    (hfail : (getPemCert w t).result = Result.ret cert (some err)) :
    ValidationKeyGetter w t = ⟨Result.panic err, [jwksURL]⟩ := by
  have hf := getPemCert_fetches w t
  simp [ValidationKeyGetter, ha, hi, hfail, hf]

/-- C3, the failing inputs: for a token with the expected audience and
issuer, each way `getPemCert` can fail (the key-set request fails, the body
does not decode, no record has the token's `kid`) ends in a panic. -/
theorem C3_key_resolution_failure_panics_witness :
    ValidationKeyGetter (worldOf (Except.error "dial tcp: connection refused"))
        (mkToken (some (Value.str "k1")) (some (Value.str aud)) (some (Value.str iss)))
        = ⟨Result.panic "dial tcp: connection refused", [jwksURL]⟩
      ∧ ValidationKeyGetter (worldOf (Except.ok ⟨200, Except.error "unexpected end of JSON input"⟩))
          (mkToken (some (Value.str "k1")) (some (Value.str aud)) (some (Value.str iss)))
        = ⟨Result.panic "unexpected end of JSON input", [jwksURL]⟩
      ∧ ValidationKeyGetter (worldOfKeys 200 [⟨"k2", ["MIIB"]⟩])
          (mkToken (some (Value.str "k1")) (some (Value.str aud)) (some (Value.str iss)))
        = ⟨Result.panic "Unable to find appropriate key.", [jwksURL]⟩ :=
  ⟨C3_key_resolution_failure_panics (worldOf (Except.error "dial tcp: connection refused"))
      (mkToken (some (Value.str "k1")) (some (Value.str aud)) (some (Value.str iss)))
      "" "dial tcp: connection refused" rfl rfl rfl,
    C3_key_resolution_failure_panics
      (worldOf (Except.ok ⟨200, Except.error "unexpected end of JSON input"⟩))
      (mkToken (some (Value.str "k1")) (some (Value.str aud)) (some (Value.str iss)))
      "" "unexpected end of JSON input" rfl rfl rfl,
    C3_key_resolution_failure_panics (worldOfKeys 200 [⟨"k2", ["MIIB"]⟩])
      (mkToken (some (Value.str "k1")) (some (Value.str aud)) (some (Value.str iss)))
      "" "Unable to find appropriate key." rfl rfl rfl⟩

/-! ## C4: records sharing a key identifier -/

/-- C4 (as amended): when the key set was fetched and decoded and some
record has the token's `kid`, `getPemCert` returns the certificate built
from the last such record in sequence order (every earlier record with that
`kid` having a chain entry to read): the loop has no `break`, so the last
match wins. -/
theorem C4_last_match_wins (w : World) (t : Token) (resp : Response)
    (pre post : List JwksKey) (r : JwksKey) (e : String) (rest : List String)
    (hget : w.httpGet jwksURL = Except.ok resp)
    (hbody : resp.Body = Except.ok ⟨pre ++ r :: post⟩)
    (hpre : ∀ k ∈ pre, t.Header "kid" = some (Value.str k.Kid) → k.X5c ≠ [])
    (hr : t.Header "kid" = some (Value.str r.Kid))
    (hx : r.X5c = e :: rest)
    (hpost : ∀ k ∈ post, t.Header "kid" ≠ some (Value.str k.Kid)) :
    getPemCert w t = ⟨Result.ret (pemOf e) none, [jwksURL]⟩ :=
  getPemCert_of_cert w t resp ⟨pre ++ r :: post⟩ e hget hbody
    (certLoop_last_match _ pre post r e rest "" hpre hr hx hpost)

/-- C4, instance: of three records, the first two sharing the token's
`kid`, the second one provides the certificate. -/
theorem C4_last_match_wins_witness :
    getPemCert (worldOfKeys 200 [⟨"k1", ["AAAA"]⟩, ⟨"k1", ["BBBB", "CCCC"]⟩, ⟨"k2", ["DDDD"]⟩])
        (mkToken (some (Value.str "k1")) (some (Value.str aud)) (some (Value.str iss)))
      = ⟨Result.ret (pemOf "BBBB") none, [jwksURL]⟩ :=
  C4_last_match_wins (worldOfKeys 200 [⟨"k1", ["AAAA"]⟩, ⟨"k1", ["BBBB", "CCCC"]⟩, ⟨"k2", ["DDDD"]⟩])
    (mkToken (some (Value.str "k1")) (some (Value.str aud)) (some (Value.str iss)))
    ⟨200, Except.ok ⟨[⟨"k1", ["AAAA"]⟩, ⟨"k1", ["BBBB", "CCCC"]⟩, ⟨"k2", ["DDDD"]⟩]⟩⟩
    [⟨"k1", ["AAAA"]⟩] [⟨"k2", ["DDDD"]⟩] ⟨"k1", ["BBBB", "CCCC"]⟩ "BBBB" ["CCCC"]
    rfl rfl (by decide) rfl rfl (by decide)

/-- C4 fails as stated: with two records carrying the token's `kid`,
`getPemCert` returns the certificate of the second one, not of the first. -/
theorem C4_counterexample_first_match :
    getPemCert (worldOfKeys 200 [⟨"k1", ["AAAA"]⟩, ⟨"k1", ["BBBB"]⟩])
        (mkToken (some (Value.str "k1")) (some (Value.str aud)) (some (Value.str iss)))
        = ⟨Result.ret "-----BEGIN CERTIFICATE-----\nBBBB\n-----END CERTIFICATE-----" none,
            [jwksURL]⟩
      ∧ (getPemCert (worldOfKeys 200 [⟨"k1", ["AAAA"]⟩, ⟨"k1", ["BBBB"]⟩])
          (mkToken (some (Value.str "k1")) (some (Value.str aud)) (some (Value.str iss)))).result
        ≠ Result.ret "-----BEGIN CERTIFICATE-----\nAAAA\n-----END CERTIFICATE-----" none := by
  have h : getPemCert (worldOfKeys 200 [⟨"k1", ["AAAA"]⟩, ⟨"k1", ["BBBB"]⟩])
      (mkToken (some (Value.str "k1")) (some (Value.str aud)) (some (Value.str iss)))
      = ⟨Result.ret "-----BEGIN CERTIFICATE-----\nBBBB\n-----END CERTIFICATE-----" none,
          [jwksURL]⟩ := rfl
  refine ⟨h, ?_⟩
  rw [h]
  simp

/-! ## C5: result of `getPemCert` on a decoded key set -/

/-- C5: for a key set that was fetched and decoded and whose records all have
at least one chain entry, `getPemCert` returns the error
"Unable to find appropriate key." exactly when no record's `Kid` equals the
token header's `kid`; otherwise it returns, with a nil error, the first chain
entry of a record with that `Kid` wrapped in the PEM certificate lines. -/
theorem C5_getPemCert_result (w : World) (t : Token) (resp : Response) (jwks : Jwks)
    (hget : w.httpGet jwksURL = Except.ok resp) (hbody : resp.Body = Except.ok jwks)
    (hx : ∀ k ∈ jwks.Keys, k.X5c ≠ []) :
    ((∃ cert, (getPemCert w t).result = Result.ret cert (some "Unable to find appropriate key."))
        ↔ ∀ k ∈ jwks.Keys, t.Header "kid" ≠ some (Value.str k.Kid))
      ∧ ((∀ k ∈ jwks.Keys, t.Header "kid" ≠ some (Value.str k.Kid)) →
          (getPemCert w t).result = Result.ret "" (some "Unable to find appropriate key."))
      ∧ ((∃ k ∈ jwks.Keys, t.Header "kid" = some (Value.str k.Kid)) →
          ∃ k ∈ jwks.Keys, t.Header "kid" = some (Value.str k.Kid) ∧
            ∃ e rest, k.X5c = e :: rest ∧
              (getPemCert w t).result
                = Result.ret ("-----BEGIN CERTIFICATE-----\n" ++ e ++ "\n-----END CERTIFICATE-----")
                    none) := by
  have hres : (getPemCert w t).result = pemFromResponse t resp := by
    rw [getPemCert_of_response w t resp hget]
  rcases certLoop_spec (t.Header "kid") jwks.Keys "" hx with
    ⟨hno, hrun⟩ | ⟨k, hk, hm, e, rest, hxe, hrun⟩
  · have hval : (getPemCert w t).result
        = Result.ret "" (some "Unable to find appropriate key.") := by
      rw [hres]
      simp [pemFromResponse, hbody, hrun]
    refine ⟨⟨fun _ => hno, fun _ => ⟨"", hval⟩⟩, fun _ => hval, ?_⟩
    rintro ⟨k, hk, hm⟩
    exact absurd hm (hno k hk)
  · have hval : (getPemCert w t).result = Result.ret (pemOf e) none := by
      rw [hres]
      simp [pemFromResponse, hbody, hrun, pemOf_ne_empty]
    refine ⟨⟨?_, fun hno => absurd hm (hno k hk)⟩, fun hno => absurd hm (hno k hk),
      fun _ => ⟨k, hk, hm, e, rest, hxe, hval⟩⟩
    rintro ⟨cert, hc⟩
    rw [hval] at hc
    simp at hc

/-- C5, instance: with records `k1` and `k2` and a token for `k2`, the
certificate of `k2` is returned with a nil error. -/
theorem C5_getPemCert_result_witness :
    ∃ k ∈ [(⟨"k1", ["AAAA"]⟩ : JwksKey), ⟨"k2", ["BBBB"]⟩],
      (mkToken (some (Value.str "k2")) (some (Value.str aud)) (some (Value.str iss))).Header "kid"
          = some (Value.str k.Kid) ∧
        ∃ e rest, k.X5c = e :: rest ∧
          (getPemCert (worldOfKeys 200 [⟨"k1", ["AAAA"]⟩, ⟨"k2", ["BBBB"]⟩])
            (mkToken (some (Value.str "k2")) (some (Value.str aud)) (some (Value.str iss)))).result
            = Result.ret ("-----BEGIN CERTIFICATE-----\n" ++ e ++ "\n-----END CERTIFICATE-----")
                none :=
  (C5_getPemCert_result (worldOfKeys 200 [⟨"k1", ["AAAA"]⟩, ⟨"k2", ["BBBB"]⟩])
    (mkToken (some (Value.str "k2")) (some (Value.str aud)) (some (Value.str iss)))
    ⟨200, Except.ok ⟨[⟨"k1", ["AAAA"]⟩, ⟨"k2", ["BBBB"]⟩]⟩⟩ ⟨[⟨"k1", ["AAAA"]⟩, ⟨"k2", ["BBBB"]⟩]⟩
    rfl rfl (by decide)).2.2 ⟨⟨"k2", ["BBBB"]⟩, by decide, rfl⟩

/-! ## C6: malformed key material -/

/-- C6, what the code does: for a token that passes the audience and issuer
checks and whose certificate was found, when the PEM parser rejects the
certificate its error is dropped (line 38 returns `nil` in its place): the
`ValidationKeyGetter` returns a nil key together with a nil error. -/
theorem C6_parse_error_dropped (w : World) (t : Token) (cert perr : String)
    (ha : t.Claims.VerifyAudience aud false = true)
    (hi : t.Claims.VerifyIssuer iss false = true)
    (hcert : (getPemCert w t).result = Result.ret cert none)
    (hparse : w.ParseRSAPublicKeyFromPEM cert = Except.error perr) :
    ValidationKeyGetter w t = ⟨Result.ret (KeyValue.rsa none) none, [jwksURL]⟩ := by
  have hf := getPemCert_fetches w t
  simp [ValidationKeyGetter, ha, hi, hcert, hparse, hf]

/-- C6, the failing input: the token has the expected audience and issuer
and its `kid` matches a record whose certificate entry is not a
certificate. -/
theorem C6_parse_error_dropped_witness :
    ValidationKeyGetter (worldOfKeys 200 [⟨"k1", ["not-a-certificate"]⟩])
        (mkToken (some (Value.str "k1")) (some (Value.str aud)) (some (Value.str iss)))
      = ⟨Result.ret (KeyValue.rsa none) none, [jwksURL]⟩ :=
  C6_parse_error_dropped (worldOfKeys 200 [⟨"k1", ["not-a-certificate"]⟩])
    (mkToken (some (Value.str "k1")) (some (Value.str aud)) (some (Value.str iss)))
    (pemOf "not-a-certificate")
    "Invalid Key: Key must be PEM encoded PKCS1 or PKCS8 private key" rfl rfl rfl rfl

/-! ## C7: failures of the key-set request -/

/-- C7 (as amended): `getPemCert` returns the error of `http.Get` when the
transport fails, and the decoder's error when the body of the response does
not decode, in both cases with an empty certificate; the status code of the
response is never inspected, so the result for a response does not depend on
it. -/
theorem C7_fetch_failures (w : World) (t : Token) :
    (∀ err, w.httpGet jwksURL = Except.error err →
        getPemCert w t = ⟨Result.ret "" (some err), [jwksURL]⟩)
      ∧ (∀ resp err, w.httpGet jwksURL = Except.ok resp → resp.Body = Except.error err →
        getPemCert w t = ⟨Result.ret "" (some err), [jwksURL]⟩)
      ∧ (∀ resp status, w.httpGet jwksURL = Except.ok resp →
        getPemCert ⟨fun _ => Except.ok ⟨status, resp.Body⟩, w.ParseRSAPublicKeyFromPEM⟩ t
          = getPemCert w t) := by
  refine ⟨?_, ?_, ?_⟩
  · intro err h
    simp [getPemCert, h]
  · intro resp err h hb
    simp [getPemCert, h, pemFromResponse, hb]
  · intro resp status h
    simp [getPemCert, h, pemFromResponse]

/-- C7, instance: a refused connection and a truncated body both come
back as the error of the failing step. -/
theorem C7_fetch_failures_witness :
    getPemCert (worldOf (Except.error "dial tcp: connection refused"))
        (mkToken (some (Value.str "k1")) (some (Value.str aud)) (some (Value.str iss)))
        = ⟨Result.ret "" (some "dial tcp: connection refused"), [jwksURL]⟩
      ∧ getPemCert
          (worldOf (Except.ok ⟨503, Except.error "unexpected end of JSON input"⟩))
          (mkToken (some (Value.str "k1")) (some (Value.str aud)) (some (Value.str iss)))
        = ⟨Result.ret "" (some "unexpected end of JSON input"),
            [jwksURL]⟩ :=
  ⟨(C7_fetch_failures (worldOf (Except.error "dial tcp: connection refused")) _).1 _ rfl,
    (C7_fetch_failures
      (worldOf (Except.ok ⟨503, Except.error "unexpected end of JSON input"⟩))
      _).2.1 ⟨503, Except.error "unexpected end of JSON input"⟩ _ rfl rfl⟩

/-- C7 fails as stated: a response with status 500 whose body decodes to a
key set holding the token's `kid` yields that record's certificate with a
nil error. -/
theorem C7_counterexample_non_2xx :
    getPemCert (worldOfKeys 500 [⟨"k1", ["MIIB"]⟩])
        (mkToken (some (Value.str "k1")) (some (Value.str aud)) (some (Value.str iss)))
      = ⟨Result.ret "-----BEGIN CERTIFICATE-----\nMIIB\n-----END CERTIFICATE-----" none,
          [jwksURL]⟩ :=
  rfl

/-! ## C8: the accepting path -/

/-- C8 (as amended): for a token whose `aud` claim is the expected audience
and whose `iss` claim is the expected issuer, when the key set was fetched
and decoded and the last record in sequence order carrying the token's `kid`
holds a certificate the PEM parser accepts (every earlier record with that
`kid` having a chain entry to read), the `ValidationKeyGetter` returns a nil
error together with the RSA public key parsed from that record's PEM
certificate, after one key-set request. -/
theorem C8_key_resolved (w : World) (t : Token) (resp : Response)
    (pre post : List JwksKey) (r : JwksKey) (e : String) (rest : List String)
    (key : RSAPublicKey)
    (haud : t.Claims "aud" = some (Value.str aud))
    (hiss : t.Claims "iss" = some (Value.str iss))
    (hget : w.httpGet jwksURL = Except.ok resp)
    (hbody : resp.Body = Except.ok ⟨pre ++ r :: post⟩)
    (hpre : ∀ k ∈ pre, t.Header "kid" = some (Value.str k.Kid) → k.X5c ≠ [])
    (hr : t.Header "kid" = some (Value.str r.Kid))
    (hx : r.X5c = e :: rest)
    (hpost : ∀ k ∈ post, t.Header "kid" ≠ some (Value.str k.Kid))
    (hparse : w.ParseRSAPublicKeyFromPEM (pemOf e) = Except.ok key) :
    ValidationKeyGetter w t = ⟨Result.ret (KeyValue.rsa (some key)) none, [jwksURL]⟩ := by
  have ha : t.Claims.VerifyAudience aud false = true := by
    simp [MapClaims.VerifyAudience, haud, asString, verifyAud]
  have hi : t.Claims.VerifyIssuer iss false = true := by
    simp [MapClaims.VerifyIssuer, hiss, asString, verifyIss]
  have hcert : getPemCert w t = ⟨Result.ret (pemOf e) none, [jwksURL]⟩ :=
    getPemCert_of_cert w t resp ⟨pre ++ r :: post⟩ e hget hbody
      (certLoop_last_match _ pre post r e rest "" hpre hr hx hpost)
  simp [ValidationKeyGetter, ha, hi, hcert, hparse]

/-- C8, instance: a token for the expected audience and issuer whose `kid`
names the second of two records gets that record's key. -/
theorem C8_key_resolved_witness :
    ValidationKeyGetter (worldOfKeys 200 [⟨"k0", ["AAAA"]⟩, ⟨"k1", ["MIIB"]⟩])
        (mkToken (some (Value.str "k1")) (some (Value.str aud)) (some (Value.str iss)))
      = ⟨Result.ret (KeyValue.rsa (some ⟨3233, 17⟩)) none, [jwksURL]⟩ :=
  C8_key_resolved (worldOfKeys 200 [⟨"k0", ["AAAA"]⟩, ⟨"k1", ["MIIB"]⟩])
    (mkToken (some (Value.str "k1")) (some (Value.str aud)) (some (Value.str iss)))
    ⟨200, Except.ok ⟨[⟨"k0", ["AAAA"]⟩, ⟨"k1", ["MIIB"]⟩]⟩⟩
    [⟨"k0", ["AAAA"]⟩] [] ⟨"k1", ["MIIB"]⟩ "MIIB" [] ⟨3233, 17⟩
    rfl rfl rfl rfl (by decide) rfl rfl (by decide) rfl

/-- C8 fails as stated: the token has the expected audience and issuer and
its `kid` matches the first record, whose certificate the parser accepts;
a later record with the same `kid` holds malformed key material, and the
getter returns a nil key (with a nil error) instead of the key parsed from
the well-formed record. -/
theorem C8_counterexample_shadowed_record :
    parseOnlyMIIB (pemOf "MIIB") = Except.ok ⟨3233, 17⟩
      ∧ ValidationKeyGetter (worldOfKeys 200 [⟨"k1", ["MIIB"]⟩, ⟨"k1", ["not-a-certificate"]⟩])
          (mkToken (some (Value.str "k1")) (some (Value.str aud)) (some (Value.str iss)))
        = ⟨Result.ret (KeyValue.rsa none) none, [jwksURL]⟩ :=
  ⟨rfl, rfl⟩

/-! ## C10: order of the checks -/

/-- C10: the getter short-circuits in the order audience, issuer, key
resolution. A token failing the audience check gets "Invalid audience."
and one failing only the issuer check gets "Invalid issuer.", in both cases
with no key-set request made; a token failing both checks gets
"Invalid audience."; only a token passing both checks reaches `getPemCert`,
which makes one request to the key-set URL. -/
theorem C10_short_circuit (w : World) (t : Token) :
    (t.Claims.VerifyAudience aud false = false →
        ValidationKeyGetter w t
          = ⟨Result.ret (KeyValue.token t) (some "Invalid audience."), []⟩)
      ∧ (t.Claims.VerifyAudience aud false = true → t.Claims.VerifyIssuer iss false = false →
        ValidationKeyGetter w t
          = ⟨Result.ret (KeyValue.token t) (some "Invalid issuer."), []⟩)
      ∧ (t.Claims.VerifyAudience aud false = false → t.Claims.VerifyIssuer iss false = false →
        ValidationKeyGetter w t
          = ⟨Result.ret (KeyValue.token t) (some "Invalid audience."), []⟩)
      ∧ (t.Claims.VerifyAudience aud false = true → t.Claims.VerifyIssuer iss false = true →
        (ValidationKeyGetter w t).fetches = [jwksURL]) :=
  ⟨getter_of_aud_fail w t, getter_of_iss_fail w t, fun ha _ => getter_of_aud_fail w t ha,
    getter_fetches_of_pass w t⟩

/-- C10, instance: a token with a foreign audience and a foreign issuer is
reported as "Invalid audience." and no request is made, even in a world
whose key-set request would fail. -/
theorem C10_short_circuit_witness :
    ValidationKeyGetter (worldOf (Except.error "dial tcp: connection refused"))
        (mkToken (some (Value.str "k1")) (some (Value.str "https://other.example/"))
          (some (Value.str "https://evil.example/")))
      = ⟨Result.ret (KeyValue.token (mkToken (some (Value.str "k1"))
          (some (Value.str "https://other.example/")) (some (Value.str "https://evil.example/"))))
          (some "Invalid audience."), []⟩ :=
  (C10_short_circuit _ _).2.2.1 rfl rfl

end Auth0Backend
